import Mathlib

/-!
Shallow embedding of the Room Coordination and Buzzer Arbitration Engine of
`src/server.js` (the moderated variant, lines 1-396): rooms, connection
bindings, the per-action handlers and the disconnect reconciler, modelled as a
pure step function on an explicit `World` state.

Modelling conventions:
* A live connection (`ws` object) is identified by a `ConnId` (natural number);
  its mutable attached fields (`readyState`, `isHost`, `isContestant`,
  `roomCode`, `clientId`, `pendingRequestId`) live in `World.conns`.
* JavaScript `Map`s become association lists (`alGet`/`alSet`/`alDel` mirror
  `get`/`set`/`delete`; JS `Map.set` overwrites in place, `delete` removes the
  unique entry).
* The random token generator (`generateClientId`, used for both client ids and
  request ids) is modelled as a fresh-counter supply `World.nextId`; the random
  room-code generator `generateRoomCode` draws deterministically from the same
  supply into the 1000..9999 range.  The source treats collisions of the random
  tokens as negligible; the counter realises exactly the "fresh token"
  behaviour.
* Falsy checks on ids/payloads (`!value`) become `Option` matches; JS ids are
  non-empty strings, hence always truthy when present.
* `ws.send` guarded by `readyState === OPEN` becomes `send`, which emits an
  output `(recipient, message)` only when the recipient is open;
  `ws.close()` sets the connection's `readyOpen` to `false`, and the `close`
  event handler runs as a separate `Event.disconnect`.
-/

abbrev ConnId := Nat
abbrev ClientId := Nat
abbrev ReqId := Nat

def ROOM_CODE_LENGTH : Nat := 4

/-- The three fixed slot identifiers `SLOT_IDS`. -/
inductive SlotId where
  | c1
  | c2
  | c3
deriving DecidableEq, Repr

/-- The string form of a slot id, as stored in `SLOT_IDS`. -/
def SlotId.str : SlotId → String
  | .c1 => "contestant-1"
  | .c2 => "contestant-2"
  | .c3 => "contestant-3"

/-- `room.slots.get(slotId)` is defined only on the three keys of `SLOT_IDS`;
any other string looks up as `undefined` (here: `none`). -/
def parseSlotId (s : String) : Option SlotId :=
  if s = "contestant-1" then some .c1
  else if s = "contestant-2" then some .c2
  else if s = "contestant-3" then some .c3
  else none

/-- `SLOT_KEYS[slotId] || ''` (total on the three real slot ids). -/
def SLOT_KEYS : SlotId → String
  | .c1 => "1"
  | .c2 => "2"
  | .c3 => "3"

/-- A `{ clientId, name }` value stored in an occupied slot. -/
structure SlotVal where
  clientId : ClientId
  name : String
deriving DecidableEq, Repr

/-- `room.slots`: a map with exactly the three `SLOT_IDS` keys, each `null`
(empty) or a `SlotVal`. -/
structure Slots where
  s1 : Option SlotVal
  s2 : Option SlotVal
  s3 : Option SlotVal
deriving DecidableEq, Repr

def Slots.get (s : Slots) : SlotId → Option SlotVal
  | .c1 => s.s1
  | .c2 => s.s2
  | .c3 => s.s3

def Slots.set (s : Slots) : SlotId → Option SlotVal → Slots
  | .c1, v => { s with s1 := v }
  | .c2, v => { s with s2 := v }
  | .c3, v => { s with s3 := v }

/-- All slots `null`, as after `SLOT_IDS.forEach(id => slots.set(id, null))`. -/
def Slots.empty : Slots := ⟨none, none, none⟩

/-- The fallback scan of the close handler: null out every slot holding the
given client id. -/
def Slots.clearClient (s : Slots) (cid : ClientId) : Slots :=
  let clr : Option SlotVal → Option SlotVal := fun v =>
    match v with
    | some sl => if sl.clientId = cid then none else some sl
    | none => none
  ⟨clr s.s1, clr s.s2, clr s.s3⟩

/-- Number of non-empty slots. -/
def slotsFilled (s : Slots) : Nat :=
  (if s.s1.isSome then 1 else 0) + (if s.s2.isSome then 1 else 0) +
    (if s.s3.isSome then 1 else 0)

/-- A `contestants` entry `{ ws, name, slotId }`. -/
structure CEntry where
  ws : ConnId
  name : String
  slotId : SlotId
deriving DecidableEq, Repr

/-- A `pendingJoins` entry `{ ws, name }`. -/
structure PendEntry where
  ws : ConnId
  name : String
deriving DecidableEq, Repr

/-- Association-list `Map.get`. -/
def alGet {K V : Type} [DecidableEq K] : List (K × V) → K → Option V
  | [], _ => none
  | (k0, v0) :: t, k => if k = k0 then some v0 else alGet t k

/-- Association-list `Map.set`: overwrite in place if the key is present,
else append. -/
def alSet {K V : Type} [DecidableEq K] : List (K × V) → K → V → List (K × V)
  | [], k, v => [(k, v)]
  | (k0, v0) :: t, k, v =>
    if k = k0 then (k0, v) :: t else (k0, v0) :: alSet t k v

/-- Association-list `Map.delete`: remove the (first) entry with the key. -/
def alDel {K V : Type} [DecidableEq K] : List (K × V) → K → List (K × V)
  | [], _ => []
  | (k0, v0) :: t, k => if k = k0 then t else (k0, v0) :: alDel t k

/-- One `Room` object. -/
structure Room where
  code : String
  host : Option ConnId
  contestants : List (ClientId × CEntry)
  slots : Slots
  buzzersOpen : Bool
  activeResponder : Option ClientId
  pendingJoins : List (ReqId × PendEntry)
deriving DecidableEq, Repr

/-- The mutable fields attached to a `ws` connection object. -/
structure ConnState where
  readyOpen : Bool
  isHost : Bool
  isContestant : Bool
  roomCode : Option String
  clientId : Option ClientId
  pendingRequestId : Option ReqId
deriving DecidableEq, Repr

/-- A connection object that has not (yet) connected: every field falsy. -/
def ConnState.initial : ConnState := ⟨false, false, false, none, none, none⟩

/-- The whole server state: the `rooms` map, the per-connection attached
fields, the fresh-token supply and the wall clock (`Date.now()`, never
advanced by the engine itself). -/
structure World where
  rooms : List (String × Room)
  conns : ConnId → ConnState
  nextId : Nat
  now : Nat

def World.init : World :=
  { rooms := [], conns := fun _ => ConnState.initial, nextId := 0, now := 0 }

def setConn (w : World) (c : ConnId) (f : ConnState → ConnState) : World :=
  { w with conns := fun x => if x = c then f (w.conns x) else w.conns x }

/-- `ws.close()`: the connection stops being open (its close event is a later
`Event.disconnect`). -/
def closeConn (w : World) (c : ConnId) : World :=
  setConn w c (fun s => { s with readyOpen := false })

/-- Server-to-client messages (§6), with the payload fields the engine fills
in. -/
inductive OutMsg where
  | roomClosed (message : String)
  | hostRegistered (roomCode : String)
  | sync (payload : String)
  | buzzersState (isOpen : Bool) (message : String)
  | buzzResult (contestantId : Option ClientId) (name : Option String)
  | joinDenied (message : String)
  | joinPending (requestId : ReqId)
  | contestantRequested (requestId : ReqId) (name : String) (requestedAt : Nat)
  | contestantRequestRemoved (requestId : ReqId) (reason : String)
  | contestantRequestError (requestId : ReqId) (message : String)
  | joinAccepted (slotId : SlotId) (clientId : ClientId) (key : String) (name : String)
  | contestantJoined (slotId : SlotId) (clientId : ClientId) (name : String)
  | contestantLeft (slotId : Option SlotId) (clientId : ClientId)
  | contestantBuzz (slotId : String) (clientId : ClientId) (name : Option String)
deriving DecidableEq, Repr

abbrev Out := ConnId × OutMsg

/-- `send(ws, data)`: dropped unless the recipient's `readyState` is `OPEN`. -/
def send (w : World) (c : ConnId) (m : OutMsg) : List Out :=
  if (w.conns c).readyOpen then [(c, m)] else []

/-- `sanitizeRoomCode`: keep only digits, require at least 4, truncate to 4;
empty string signals an invalid/missing code. -/
def sanitizeRoomCode (value : Option String) : String :=
  match value with
  | none => ""
  | some s =>
    if s = "" then ""
    else
      let digits := s.toList.filter Char.isDigit
      if digits.length < ROOM_CODE_LENGTH then ""
      else String.mk (digits.take ROOM_CODE_LENGTH)

/-- Replace each maximal run of CR/LF characters by a single space
(`replace(/[\r\n]+/g, ' ')`); the flag records whether we are inside a run. -/
def collapseNewlinesAux : Bool → List Char → List Char
  | _, [] => []
  | inRun, ch :: rest =>
    if ch = '\r' ∨ ch = '\n' then
      if inRun then collapseNewlinesAux true rest
      else ' ' :: collapseNewlinesAux true rest
    else ch :: collapseNewlinesAux false rest

/-- `trim()` on a character list: drop whitespace from both ends. -/
def trimChars (l : List Char) : List Char :=
  ((l.dropWhile Char.isWhitespace).reverse.dropWhile Char.isWhitespace).reverse

/-- `sanitizeName`: squash newline runs to spaces, trim, cap at 40 chars. -/
def sanitizeName (value : Option String) : String :=
  match value with
  | none => ""
  | some s =>
    if s = "" then ""
    else String.mk ((trimChars (collapseNewlinesAux false s.toList)).take 40)

/-- `generateRoomCode`: a uniform draw from 1000..9999, modelled
deterministically from the fresh supply. -/
def generateRoomCode (n : Nat) : String :=
  toString (1000 + n % 9000)

/-- `generateClientId`: a fresh opaque token from the supply. -/
def generateClientId (w : World) : Nat × World :=
  (w.nextId, { w with nextId := w.nextId + 1 })

/-- `createRoom` (the room is also inserted into the registry by the caller
`ensureRoom`). -/
def createRoom (code : String) : Room :=
  { code := code, host := none, contestants := [], slots := Slots.empty,
    buzzersOpen := false, activeResponder := none, pendingJoins := [] }

/-- `getRoom`. -/
def getRoom (w : World) (code : String) : Option Room :=
  alGet w.rooms code

/-- `ensureRoom`: return the existing room or create and store a fresh one. -/
def ensureRoom (w : World) (code : String) : Room × World :=
  match alGet w.rooms code with
  | some r => (r, w)
  | none =>
    let r := createRoom code
    (r, { w with rooms := alSet w.rooms code r })

/-- Write the (mutated-in-place) room object back at its registry key. -/
def putRoom (w : World) (code : String) (r : Room) : World :=
  { w with rooms := alSet w.rooms code r }

/-- `broadcastToContestants`. -/
def broadcastToContestants (w : World) (r : Room) (m : OutMsg) : List Out :=
  r.contestants.flatMap (fun p => send w p.2.ws m)

/-- `notifyJoinRequestRemoval`. -/
def notifyJoinRequestRemoval (w : World) (r : Room) (requestId : ReqId)
    (reason : String) : List Out :=
  match r.host with
  | some h => if (w.conns h).readyOpen then [(h, .contestantRequestRemoved requestId reason)] else []
  | none => []

/-- The `pendingJoins.forEach` loop of `clearPendingRequests`: for each open
applicant clear its pending marker, send `join-denied` and close it. -/
def clearPendingLoop (w : World) (l : List (ReqId × PendEntry)) (reason : String) :
    World × List Out :=
  match l with
  | [] => (w, [])
  | (_, pe) :: t =>
    if (w.conns pe.ws).readyOpen then
      let w1 := setConn w pe.ws
        (fun s => { s with pendingRequestId := none, readyOpen := false })
      let rec1 := clearPendingLoop w1 t reason
      (rec1.1, (pe.ws, OutMsg.joinDenied reason) :: rec1.2)
    else clearPendingLoop w t reason

/-- `clearPendingRequests(room, reason)`; the `reason || default` fallback. -/
def clearPendingRequests (w : World) (r : Room) (reason : String) :
    World × Room × List Out :=
  let msg := if reason = "" then "Host disconnected. Try joining again soon." else reason
  let rec1 := clearPendingLoop w r.pendingJoins msg
  (rec1.1, { r with pendingJoins := [] }, rec1.2)

/-- The `for (const slotId of SLOT_IDS)` search in `assignSlot`. -/
def firstEmptySlot (s : Slots) : Option SlotId :=
  if s.s1.isNone then some .c1
  else if s.s2.isNone then some .c2
  else if s.s3.isNone then some .c3
  else none

/-- `assignSlot(room, name, ws)`: first-fit over `SLOT_IDS`, minting a fresh
client id from the supply; `none` when all slots are occupied. -/
def assignSlot (r : Room) (name : String) (ws : ConnId) (nextId : Nat) :
    Option (SlotId × ClientId) × Room × Nat :=
  match firstEmptySlot r.slots with
  | none => (none, r, nextId)
  | some sid =>
    let cid := nextId
    (some (sid, cid),
     { r with slots := r.slots.set sid (some ⟨cid, name⟩),
              contestants := alSet r.contestants cid ⟨ws, name, sid⟩ },
     nextId + 1)

/-- `resetRoomState`: close buzzers, clear the responder; the slot loop only
re-nulls already-null slots. -/
def resetRoomState (r : Room) : Room :=
  { r with buzzersOpen := false, activeResponder := none,
           slots := ⟨(if r.slots.s1.isNone then none else r.slots.s1),
                     (if r.slots.s2.isNone then none else r.slots.s2),
                     (if r.slots.s3.isNone then none else r.slots.s3)⟩ }

/-- The `room.contestants.forEach` eviction loop of `handleRegisterHost` /
the host close handler: send a message (when asked) to each contestant and
close its connection. -/
def evictContestantsLoop (w : World) (l : List (ClientId × CEntry))
    (m : Option OutMsg) : World × List Out :=
  match l with
  | [] => (w, [])
  | (_, e) :: t =>
    let outs0 := match m with
      | some msg => send w e.ws msg
      | none => []
    let rec1 := evictContestantsLoop (closeConn w e.ws) t m
    (rec1.1, outs0 ++ rec1.2)

/-- Evicting a previous host in `handleRegisterHost`: notify and close it
unless it is the registering connection itself. -/
def evictOldHost (w : World) (oldHost : Option ConnId) (c : ConnId) :
    World × List Out :=
  match oldHost with
  | some h =>
    if h ≠ c then (closeConn w h, send w h (.roomClosed "Host replaced."))
    else (w, [])
  | none => (w, [])

/-- `handleRegisterHost(ws, message)`. -/
def handleRegisterHost (w : World) (c : ConnId) (msgRoomCode : Option String) :
    World × List Out :=
  let san := sanitizeRoomCode msgRoomCode
  let providedCode := if san = "" then generateRoomCode w.nextId else san
  let w0 := if san = "" then { w with nextId := w.nextId + 1 } else w
  let er := ensureRoom w0 providedCode
  let room := er.1
  let w1 := er.2
  let eh := evictOldHost w1 room.host c
  let w2 := eh.1
  let outs1 := eh.2
  let room1 := resetRoomState { room with host := some c }
  let ev := evictContestantsLoop w2 room1.contestants
    (some (.roomClosed "Host reconnected. Please rejoin."))
  let w3 := ev.1
  let outs2 := ev.2
  let room2 := { room1 with contestants := [], slots := Slots.empty }
  let cp := clearPendingRequests w3 room2
    "Host restarted the room. Please request to join again."
  let w4 := cp.1
  let room3 := cp.2.1
  let outs3 := cp.2.2
  let w5 := setConn w4 c (fun s => { s with isHost := true, roomCode := some room3.code })
  let w6 := putRoom w5 providedCode room3
  (w6, outs1 ++ outs2 ++ outs3 ++ send w6 c (.hostRegistered room3.code))

/-- `handleBroadcast(ws, message)`. -/
def handleBroadcast (w : World) (c : ConnId) (payload : Option String) :
    World × List Out :=
  match (w.conns c).roomCode with
  | none => (w, [])
  | some code =>
    match getRoom w code, payload with
    | some r, some p =>
      if r.host = some c then (w, broadcastToContestants w r (.sync p))
      else (w, [])
    | _, _ => (w, [])

/-- The `buzzers-state` payload `{ open, message }`. -/
structure BuzzersPayload where
  isOpen : Bool
  message : Option String
deriving DecidableEq, Repr

/-- `handleBuzzersState(ws, message)`. -/
def handleBuzzersState (w : World) (c : ConnId) (payload : Option BuzzersPayload) :
    World × List Out :=
  match (w.conns c).roomCode with
  | none => (w, [])
  | some code =>
    match getRoom w code, payload with
    | some r, some p =>
      if r.host = some c then
        let r1 :=
          if p.isOpen then { r with buzzersOpen := true, activeResponder := none }
          else { r with buzzersOpen := false }
        (putRoom w code r1,
         broadcastToContestants w r1 (.buzzersState r1.buzzersOpen (p.message.getD "")))
      else (w, [])
    | _, _ => (w, [])

/-- The `buzz-result` payload `{ contestantId, name }`. -/
structure BuzzResultPayload where
  contestantId : Option ClientId
  name : Option String
deriving DecidableEq, Repr

/-- `handleBuzzResult(ws, message)`. -/
def handleBuzzResult (w : World) (c : ConnId) (payload : Option BuzzResultPayload) :
    World × List Out :=
  match (w.conns c).roomCode with
  | none => (w, [])
  | some code =>
    match getRoom w code, payload with
    | some r, some p =>
      if r.host = some c then
        let r1 := { r with activeResponder := p.contestantId }
        (putRoom w code r1,
         broadcastToContestants w r1 (.buzzResult p.contestantId p.name))
      else (w, [])
    | _, _ => (w, [])

/-- `handleJoinContestant(ws, message)`. -/
def handleJoinContestant (w : World) (c : ConnId) (msgRoomCode : Option String)
    (msgName : Option String) : World × List Out :=
  let code := sanitizeRoomCode msgRoomCode
  let name := sanitizeName msgName
  let denied := (w, send w c (.joinDenied "Room not found. Ask the host for a new code."))
  match getRoom w code with
  | none => denied
  | some r =>
    match r.host with
    | none => denied
    | some h =>
      if (w.conns h).readyOpen = false then denied
      else
        let w1 := setConn w c (fun s => { s with roomCode := some r.code })
        let existing := ((w1.conns c).pendingRequestId).bind
          (fun prid => (alGet r.pendingJoins prid).map (fun pe => (prid, pe)))
        match existing with
        | some (prid, pe) =>
          let pe1 := { pe with name := if name = "" then pe.name else name }
          (putRoom w1 code { r with pendingJoins := alSet r.pendingJoins prid pe1 }, [])
        | none =>
          let gen := generateClientId w1
          let requestId := gen.1
          let w2 := gen.2
          let storedName := if name = "" then "Contestant" else name
          let r1 := { r with pendingJoins := alSet r.pendingJoins requestId ⟨c, storedName⟩ }
          let w3 := setConn w2 c (fun s => { s with pendingRequestId := some requestId })
          let w4 := putRoom w3 code r1
          let outs1 := send w4 c (.joinPending requestId)
          let outs2 :=
            match r1.host with
            | some h2 =>
              if (w4.conns h2).readyOpen then
                [(h2, OutMsg.contestantRequested requestId storedName w4.now)]
              else []
            | none => []
          (w4, outs1 ++ outs2)

/-- `handleApproveContestant(ws, message)`; the request id is
`payload.requestId || message.requestId`. -/
def handleApproveContestant (w : World) (c : ConnId)
    (payloadReqId msgReqId : Option ReqId) : World × List Out :=
  match (w.conns c).roomCode with
  | none => (w, [])
  | some code =>
    match getRoom w code with
    | none => (w, [])
    | some r =>
      if r.host ≠ some c then (w, [])
      else
        match payloadReqId.or msgReqId with
        | none => (w, [])
        | some requestId =>
          match alGet r.pendingJoins requestId with
          | none =>
            (w, send w c (.contestantRequestError requestId "Request no longer available."))
          | some request =>
            let r1 := { r with pendingJoins := alDel r.pendingJoins requestId }
            let cw := request.ws
            let name := if request.name = "" then "Contestant" else request.name
            if (w.conns cw).readyOpen = false then
              (putRoom w code r1, notifyJoinRequestRemoval w r1 requestId "left")
            else
              let asr := assignSlot r1 name cw w.nextId
              let r2 := asr.2.1
              let n2 := asr.2.2
              match asr.1 with
              | none =>
                let w1 := setConn { w with nextId := n2 } cw
                  (fun s => { s with pendingRequestId := none })
                let w2 := putRoom w1 code r2
                (w2,
                 send w2 cw (.joinDenied "All contestant slots are full. Ask the host to free a slot and try again.")
                   ++ notifyJoinRequestRemoval w2 r2 requestId "full")
              | some (sid, cid) =>
                let w1 := setConn { w with nextId := n2 } cw
                  (fun s => { s with isContestant := true, roomCode := some r2.code,
                                     clientId := some cid, pendingRequestId := none })
                let w2 := putRoom w1 code r2
                let outs :=
                  send w2 cw (.joinAccepted sid cid (SLOT_KEYS sid) name)
                    ++ notifyJoinRequestRemoval w2 r2 requestId "approved"
                    ++ (match r2.host with
                        | some h =>
                          if (w2.conns h).readyOpen then [(h, OutMsg.contestantJoined sid cid name)]
                          else []
                        | none => [])
                (w2, outs)

/-- `handleDenyContestant(ws, message)`. -/
def handleDenyContestant (w : World) (c : ConnId)
    (payloadReqId msgReqId : Option ReqId) : World × List Out :=
  match (w.conns c).roomCode with
  | none => (w, [])
  | some code =>
    match getRoom w code with
    | none => (w, [])
    | some r =>
      if r.host ≠ some c then (w, [])
      else
        match payloadReqId.or msgReqId with
        | none => (w, [])
        | some requestId =>
          match alGet r.pendingJoins requestId with
          | none =>
            (w, send w c (.contestantRequestError requestId "Request no longer available."))
          | some request =>
            let r1 := { r with pendingJoins := alDel r.pendingJoins requestId }
            let cw := request.ws
            if (w.conns cw).readyOpen then
              let w1 := setConn w cw (fun s => { s with pendingRequestId := none })
              let w2 := putRoom w1 code r1
              (w2,
               send w2 cw (.joinDenied "Host declined your request.")
                 ++ notifyJoinRequestRemoval w2 r1 requestId "denied")
            else
              let w2 := putRoom w code r1
              (w2, notifyJoinRequestRemoval w2 r1 requestId "denied")

/-- The `contestant-buzz` payload `{ slotId, clientId, name }`. -/
structure BuzzPayload where
  slotId : String
  clientId : Option ClientId
  name : Option String
deriving DecidableEq, Repr

/-- Whether the room's host reference is present with an open connection. -/
def hostLive (w : World) (r : Room) : Bool :=
  match r.host with
  | some h => (w.conns h).readyOpen
  | none => false

/-- `handleContestantBuzz(ws, message)`: verification of the claimed slot,
then the locked / too-late / forward triage.  Never mutates the world. -/
def handleContestantBuzz (w : World) (c : ConnId) (payload : Option BuzzPayload) :
    World × List Out :=
  match (w.conns c).roomCode with
  | none => (w, [])
  | some code =>
    match getRoom w code, payload with
    | some r, some p =>
      if p.slotId = "" then (w, [])
      else
        match p.clientId with
        | none => (w, [])
        | some cid =>
          match (parseSlotId p.slotId).bind r.slots.get with
          | none => (w, [])
          | some slot =>
            if slot.clientId ≠ cid then (w, [])
            else if (r.buzzersOpen && hostLive w r) = false then
              (w, send w c (.buzzersState false "Buzzers locked."))
            else
              match r.activeResponder with
              | some ar => (w, send w c (.buzzResult (some ar) none))
              | none =>
                match r.host with
                | some h => (w, send w h (.contestantBuzz p.slotId cid p.name))
                | none => (w, [])
    | _, _ => (w, [])

/-- The pending-request removal stage of the contestant close handler. -/
def closePendingStage (w0 : World) (st : ConnState) (r : Room) : Room × List Out :=
  match st.pendingRequestId with
  | some prid =>
    match alGet r.pendingJoins prid with
    | some _ =>
      let r1 := { r with pendingJoins := alDel r.pendingJoins prid }
      (r1, notifyJoinRequestRemoval w0 r1 prid "left")
    | none => (r, [])
  | none => (r, [])

/-- The contestant-entry removal stage of the contestant close handler:
delete the `contestants` entry and free the slot holding the client id
(recorded slot id first, full scan as fallback). -/
def closeContestantStage (w0 : World) (st : ConnState) (r1 : Room) : Room × List Out :=
  if st.isContestant then
    match st.clientId with
    | some cid =>
      match alGet r1.contestants cid with
      | some entry =>
        let ra := { r1 with contestants := alDel r1.contestants cid }
        let sid := entry.slotId
        let rb :=
          match ra.slots.get sid with
          | some sl =>
            if sl.clientId = cid then { ra with slots := ra.slots.set sid none }
            else { ra with slots := ra.slots.clearClient cid }
          | none => { ra with slots := ra.slots.clearClient cid }
        (rb,
         match rb.host with
         | some h =>
           if (w0.conns h).readyOpen then [(h, OutMsg.contestantLeft (some sid) cid)]
           else []
         | none => [])
      | none => (r1, [])
    | none => (r1, [])
  else (r1, [])

/-- The `ws.on('close')` disconnect reconciler. -/
def handleClose (w : World) (c : ConnId) : World × List Out :=
  let w0 := closeConn w c
  let st := w0.conns c
  if st.isHost then
    match st.roomCode with
    | none => (w0, [])
    | some code =>
      match getRoom w0 code with
      | none => (w0, [])
      | some r =>
        if r.host = some c then
          let outs1 := broadcastToContestants w0 r (.roomClosed "Host disconnected. Please wait.")
          let w1 := (evictContestantsLoop w0 r.contestants none).1
          let r1 := { r with contestants := [], slots := Slots.empty, host := none,
                             buzzersOpen := false, activeResponder := none }
          let cp := clearPendingRequests w1 r1
            "Host disconnected. Try joining again soon."
          (putRoom cp.1 code cp.2.1, outs1 ++ cp.2.2)
        else (w0, [])
  else
    match st.roomCode with
    | none => (w0, [])
    | some code =>
      match getRoom w0 code with
      | none => (w0, [])
      | some r =>
        let st1 := closePendingStage w0 st r
        let st2 := closeContestantStage w0 st st1.1
        (putRoom w0 code st2.1, st1.2 ++ st2.2)

/-- The inbound events the transport delivers to the core: one per
client-to-server action of §6, plus connection open/close. -/
inductive Event where
  | connect (c : ConnId)
  | registerHost (c : ConnId) (roomCode : Option String)
  | joinContestant (c : ConnId) (roomCode : Option String) (name : Option String)
  | broadcastMsg (c : ConnId) (payload : Option String)
  | buzzersState (c : ConnId) (payload : Option BuzzersPayload)
  | buzzResult (c : ConnId) (payload : Option BuzzResultPayload)
  | contestantBuzz (c : ConnId) (payload : Option BuzzPayload)
  | approveContestant (c : ConnId) (payloadReqId msgReqId : Option ReqId)
  | denyContestant (c : ConnId) (payloadReqId msgReqId : Option ReqId)
  | disconnect (c : ConnId)
deriving DecidableEq, Repr

/-- `wss.on('connection')`: initialise the attached fields. -/
def connectWs (w : World) (c : ConnId) : World :=
  { w with conns := fun x => if x = c then ⟨true, false, false, none, none, none⟩ else w.conns x }

/-- One event: the `handleMessage` router (with its `if (!ws.roomCode) return`
guard for bound-only actions) plus the connection lifecycle hooks. -/
def step (w : World) (e : Event) : World × List Out :=
  match e with
  | .connect c => (connectWs w c, [])
  | .registerHost c rc => handleRegisterHost w c rc
  | .joinContestant c rc nm => handleJoinContestant w c rc nm
  | .broadcastMsg c p =>
    if (w.conns c).roomCode.isNone then (w, []) else handleBroadcast w c p
  | .buzzersState c p =>
    if (w.conns c).roomCode.isNone then (w, []) else handleBuzzersState w c p
  | .buzzResult c p =>
    if (w.conns c).roomCode.isNone then (w, []) else handleBuzzResult w c p
  | .contestantBuzz c p =>
    if (w.conns c).roomCode.isNone then (w, []) else handleContestantBuzz w c p
  | .approveContestant c pr mr =>
    if (w.conns c).roomCode.isNone then (w, []) else handleApproveContestant w c pr mr
  | .denyContestant c pr mr =>
    if (w.conns c).roomCode.isNone then (w, []) else handleDenyContestant w c pr mr
  | .disconnect c => handleClose w c

/-- Run a trace of events from a state, discarding outputs. -/
def run (w : World) (tr : List Event) : World :=
  tr.foldl (fun w e => (step w e).1) w

/-- The keys of an association list. -/
def alKeys {K V : Type} (l : List (K × V)) : List K := l.map Prod.fst

/-- The consistency invariant between a `contestants` map and a `slots` map:
contestant keys are distinct, the two maps mirror each other exactly, every
stored client id was minted below the supply bound, and the occupied-slot
count equals the map size. -/
def RoomInvC (cs : List (ClientId × CEntry)) (slots : Slots) (bound : Nat) : Prop :=
  (alKeys cs).Nodup ∧
  (∀ cid e, alGet cs cid = some e →
     ∃ sl, slots.get e.slotId = some sl ∧ sl.clientId = cid) ∧
  (∀ sid sl, slots.get sid = some sl →
     ∃ e, alGet cs sl.clientId = some e ∧ e.slotId = sid) ∧
  (∀ cid, cid ∈ alKeys cs → cid < bound) ∧
  slotsFilled slots = cs.length

/-- The per-room consistency invariant. -/
def RoomInv (r : Room) (bound : Nat) : Prop :=
  RoomInvC r.contestants r.slots bound

/-- The world invariant: every registered room satisfies `RoomInv` at the
current supply bound. -/
def WInv (w : World) : Prop :=
  ∀ code r, alGet w.rooms code = some r → RoomInv r w.nextId

/-- How many `pendingJoins` entries across all rooms refer to a connection. -/
def pendingRefs (w : World) (c : ConnId) : Nat :=
  (w.rooms.map (fun p => (p.2.pendingJoins.filter (fun q => q.2.ws = c)).length)).sum

def Event.isContestantBuzz : Event → Bool
  | .contestantBuzz _ _ => true
  | _ => false

def Event.isBuzzersState : Event → Bool
  | .buzzersState _ _ => true
  | _ => false

/-- A host registers room 1234 and immediately declares a buzz winner,
without ever opening the buzzers and without any contestant buzz. -/
def buzzResultNoOpenTrace : List Event :=
  [.connect 0, .registerHost 0 (some "1234"),
   .buzzResult 0 (some ⟨some 7, some "X"⟩)]

/-- Connection 2 requests to join room 1111, then room 2222, then room 1111
again, while both rooms have live hosts. -/
def crossRoomJoinTrace : List Event :=
  [.connect 0, .registerHost 0 (some "1111"),
   .connect 1, .registerHost 1 (some "2222"),
   .connect 2, .joinContestant 2 (some "1111") (some "A"),
   .joinContestant 2 (some "2222") (some "A"),
   .joinContestant 2 (some "1111") (some "A")]

/-- A full happy path: register, join, approve, open buzzers, declare the
winner. -/
def demoTrace : List Event :=
  [.connect 0, .registerHost 0 (some "1234"),
   .connect 1, .joinContestant 1 (some "1234") (some "Alex"),
   .approveContestant 0 (some 0) none,
   .buzzersState 0 (some ⟨true, none⟩),
   .buzzResult 0 (some ⟨some 1, some "Alex"⟩)]

/-- The room produced by `demoTrace`. -/
def demoRoom : Room :=
  { code := "1234", host := some 0,
    contestants := [(1, { ws := 1, name := "Alex", slotId := SlotId.c1 })],
    slots := { s1 := some { clientId := 1, name := "Alex" }, s2 := none, s3 := none },
    buzzersOpen := true, activeResponder := some 1, pendingJoins := [] }

/-- The room produced by the first six events of `demoTrace` (buzzers just
opened, no responder yet). -/
def openRoom : Room :=
  { code := "1234", host := some 0,
    contestants := [(1, { ws := 1, name := "Alex", slotId := SlotId.c1 })],
    slots := { s1 := some { clientId := 1, name := "Alex" }, s2 := none, s3 := none },
    buzzersOpen := true, activeResponder := none, pendingJoins := [] }

/-- The room right after host registration (first two events of
`buzzResultNoOpenTrace`). -/
def regRoom : Room :=
  { code := "1234", host := some 0, contestants := [], slots := Slots.empty,
    buzzersOpen := false, activeResponder := none, pendingJoins := [] }

/-- Room 1111 after the first six events of `crossRoomJoinTrace`: connection 2
has a pending join request with id 0. -/
def pendingRoom1111 : Room :=
  { code := "1111", host := some 0, contestants := [], slots := Slots.empty,
    buzzersOpen := false, activeResponder := none,
    pendingJoins := [(0, { ws := 2, name := "A" })] }

/-- The in-place update of a pending entry on re-request:
`existingRequest.name = name || existingRequest.name`. -/
def renamedEntry (pe : PendEntry) (name : String) : PendEntry :=
  { pe with name := if name = "" then pe.name else name }

/-- Room 1111 after the in-place re-request of connection 2 with name "Bea". -/
def pendingRoom1111Renamed : Room :=
  { pendingRoom1111 with
    pendingJoins := alSet pendingRoom1111.pendingJoins 0 (renamedEntry ⟨2, "A"⟩ (sanitizeName (some "Bea"))) }

/-! ### Association-list lemmas -/

section AssocList

variable {K V : Type}

@[simp]
theorem alKeys_nil : alKeys ([] : List (K × V)) = [] := rfl

@[simp]
theorem alKeys_cons (k0 : K) (v0 : V) (t : List (K × V)) :
    alKeys ((k0, v0) :: t) = k0 :: alKeys t := rfl

theorem alGet_alSet [DecidableEq K] (l : List (K × V)) (k : K) (v : V) (k' : K) :
    alGet (alSet l k v) k' = if k' = k then some v else alGet l k' := by
  induction l with
  | nil => by_cases h : k' = k <;> simp [alGet, alSet, h]
  | cons hd tl ih =>
    obtain ⟨k0, v0⟩ := hd
    by_cases hk : k = k0
    · subst hk
      by_cases h' : k' = k <;> simp [alGet, alSet, h']
    · by_cases h' : k' = k0
      · subst h'
        simp [alGet, alSet, hk, Ne.symm hk]
      · simp [alGet, alSet, hk, h', ih]

theorem alGet_eq_none_iff [DecidableEq K] (l : List (K × V)) (k : K) :
    alGet l k = none ↔ k ∉ alKeys l := by
  induction l with
  | nil => simp [alGet]
  | cons hd tl ih =>
    obtain ⟨k0, v0⟩ := hd
    by_cases h : k = k0
    · subst h
      simp [alGet]
    · simp [alGet, h, ih]

theorem mem_alKeys_of_get [DecidableEq K] (l : List (K × V)) (k : K) (v : V)
    (h : alGet l k = some v) : k ∈ alKeys l := by
  by_contra hmem
  rw [← alGet_eq_none_iff] at hmem
  rw [hmem] at h
  exact Option.noConfusion h

theorem alKeys_alSet_of_mem [DecidableEq K] (l : List (K × V)) (k : K) (v : V)
    (h : k ∈ alKeys l) : alKeys (alSet l k v) = alKeys l := by
  induction l with
  | nil => simp at h
  | cons hd tl ih =>
    obtain ⟨k0, v0⟩ := hd
    by_cases hk : k = k0
    · simp [alSet, hk]
    · simp [hk] at h
      simp [alSet, hk, ih h]

theorem alKeys_alSet_of_not_mem [DecidableEq K] (l : List (K × V)) (k : K) (v : V)
    (h : k ∉ alKeys l) : alKeys (alSet l k v) = alKeys l ++ [k] := by
  induction l with
  | nil => simp [alSet]
  | cons hd tl ih =>
    obtain ⟨k0, v0⟩ := hd
    simp at h
    push_neg at h
    simp [alSet, h.1, ih h.2]

theorem alKeys_length (l : List (K × V)) : (alKeys l).length = l.length := by
  simp [alKeys]

theorem length_alSet_of_not_mem [DecidableEq K] (l : List (K × V)) (k : K) (v : V)
    (h : k ∉ alKeys l) : (alSet l k v).length = l.length + 1 := by
  have := alKeys_alSet_of_not_mem l k v h
  have h1 := alKeys_length (alSet l k v)
  have h2 := alKeys_length l
  rw [this] at h1
  simp at h1
  omega

theorem alDel_sublist [DecidableEq K] (l : List (K × V)) (k : K) : (alDel l k).Sublist l := by
  induction l with
  | nil => simp [alDel]
  | cons hd tl ih =>
    obtain ⟨k0, v0⟩ := hd
    by_cases h : k = k0
    · simp [alDel, h]
    · simp only [alDel, if_neg h]
      exact List.Sublist.cons₂ _ ih

theorem alKeys_alDel_sublist [DecidableEq K] (l : List (K × V)) (k : K) :
    (alKeys (alDel l k)).Sublist (alKeys l) :=
  List.Sublist.map Prod.fst (alDel_sublist l k)

theorem length_alDel_of_get_some [DecidableEq K] (l : List (K × V)) (k : K) (v : V)
    (h : alGet l k = some v) : (alDel l k).length + 1 = l.length := by
  induction l with
  | nil => simp [alGet] at h
  | cons hd tl ih =>
    obtain ⟨k0, v0⟩ := hd
    by_cases hk : k = k0
    · simp [alDel, hk]
    · simp [alGet, hk] at h
      simp [alDel, hk, ih h]

theorem alGet_alDel_other [DecidableEq K] (l : List (K × V)) (k k' : K) (h : k' ≠ k) :
    alGet (alDel l k) k' = alGet l k' := by
  induction l with
  | nil => simp [alDel]
  | cons hd tl ih =>
    obtain ⟨k0, v0⟩ := hd
    by_cases hk : k = k0
    · subst hk
      simp [alDel, alGet, h]
    · by_cases h' : k' = k0 <;> simp [alDel, alGet, hk, h', ih]

theorem alGet_alDel_self [DecidableEq K] (l : List (K × V)) (k : K)
    (hnd : (alKeys l).Nodup) : alGet (alDel l k) k = none := by
  induction l with
  | nil => simp [alDel, alGet]
  | cons hd tl ih =>
    obtain ⟨k0, v0⟩ := hd
    rw [alKeys_cons, List.nodup_cons] at hnd
    by_cases hk : k = k0
    · subst hk
      simp only [alDel, if_pos rfl]
      rw [alGet_eq_none_iff]
      exact hnd.1
    · simp [alDel, alGet, hk]
      exact ih hnd.2

end AssocList

/-! ### Slots lemmas -/

theorem Slots.get_set_self (s : Slots) (sid : SlotId) (v : Option SlotVal) :
    (s.set sid v).get sid = v := by
  cases sid <;> rfl

theorem Slots.get_set_other (s : Slots) (sid sid' : SlotId) (v : Option SlotVal)
    (h : sid' ≠ sid) : (s.set sid v).get sid' = s.get sid' := by
  cases sid <;> cases sid' <;> first | rfl | exact absurd rfl h

theorem slotsFilled_set_some_of_none (s : Slots) (sid : SlotId) (sl : SlotVal)
    (h : s.get sid = none) :
    slotsFilled (s.set sid (some sl)) = slotsFilled s + 1 := by
  cases sid <;> simp_all [Slots.get, Slots.set, slotsFilled] <;> omega

theorem slotsFilled_set_none_of_some (s : Slots) (sid : SlotId) (sl : SlotVal)
    (h : s.get sid = some sl) :
    slotsFilled (s.set sid none) + 1 = slotsFilled s := by
  cases sid <;> simp_all [Slots.get, Slots.set, slotsFilled] <;> omega

theorem firstEmptySlot_none (s : Slots) (sid : SlotId)
    (h : firstEmptySlot s = some sid) : s.get sid = none := by
  unfold firstEmptySlot at h
  split at h
  · cases h; simpa [Slots.get, Option.isNone_iff_eq_none] using ‹s.s1.isNone = true›
  · split at h
    · cases h; simpa [Slots.get, Option.isNone_iff_eq_none] using ‹s.s2.isNone = true›
    · split at h
      · cases h; simpa [Slots.get, Option.isNone_iff_eq_none] using ‹s.s3.isNone = true›
      · cases h

theorem firstEmptySlot_eq_none (s : Slots) (h : firstEmptySlot s = none) :
    ∀ sid, (s.get sid).isSome := by
  unfold firstEmptySlot at h
  intro sid
  split at h
  · cases h
  · split at h
    · cases h
    · split at h
      · cases h
      · cases sid <;> simp [Slots.get] <;> simp_all [Option.isNone_iff_eq_none,
          Option.isSome_iff_ne_none]

/-! ### Frame lemmas: which state components each helper touches -/

@[simp]
theorem rooms_setConn (w : World) (c : ConnId) (f : ConnState → ConnState) :
    (setConn w c f).rooms = w.rooms := rfl

@[simp]
theorem nextId_setConn (w : World) (c : ConnId) (f : ConnState → ConnState) :
    (setConn w c f).nextId = w.nextId := rfl

@[simp]
theorem rooms_closeConn (w : World) (c : ConnId) : (closeConn w c).rooms = w.rooms := rfl

@[simp]
theorem nextId_closeConn (w : World) (c : ConnId) : (closeConn w c).nextId = w.nextId := rfl

@[simp]
theorem rooms_connectWs (w : World) (c : ConnId) : (connectWs w c).rooms = w.rooms := rfl

@[simp]
theorem nextId_connectWs (w : World) (c : ConnId) : (connectWs w c).nextId = w.nextId := rfl

@[simp]
theorem rooms_putRoom (w : World) (code : String) (r : Room) :
    (putRoom w code r).rooms = alSet w.rooms code r := rfl

@[simp]
theorem nextId_putRoom (w : World) (code : String) (r : Room) :
    (putRoom w code r).nextId = w.nextId := rfl

@[simp]
theorem rooms_clearPendingLoop (w : World) (l : List (ReqId × PendEntry)) (reason : String) :
    (clearPendingLoop w l reason).1.rooms = w.rooms := by
  induction l generalizing w with
  | nil => rfl
  | cons hd tl ih =>
    obtain ⟨rid, pe⟩ := hd
    by_cases h : (w.conns pe.ws).readyOpen <;> simp [clearPendingLoop, h, ih]

@[simp]
theorem nextId_clearPendingLoop (w : World) (l : List (ReqId × PendEntry)) (reason : String) :
    (clearPendingLoop w l reason).1.nextId = w.nextId := by
  induction l generalizing w with
  | nil => rfl
  | cons hd tl ih =>
    obtain ⟨rid, pe⟩ := hd
    by_cases h : (w.conns pe.ws).readyOpen <;> simp [clearPendingLoop, h, ih]

@[simp]
theorem rooms_evictContestantsLoop (w : World) (l : List (ClientId × CEntry))
    (m : Option OutMsg) : (evictContestantsLoop w l m).1.rooms = w.rooms := by
  induction l generalizing w with
  | nil => rfl
  | cons hd tl ih =>
    obtain ⟨cid, e⟩ := hd
    simp [evictContestantsLoop, ih]

@[simp]
theorem nextId_evictContestantsLoop (w : World) (l : List (ClientId × CEntry))
    (m : Option OutMsg) : (evictContestantsLoop w l m).1.nextId = w.nextId := by
  induction l generalizing w with
  | nil => rfl
  | cons hd tl ih =>
    obtain ⟨cid, e⟩ := hd
    simp [evictContestantsLoop, ih]

@[simp]
theorem rooms_evictOldHost (w : World) (oldHost : Option ConnId) (c : ConnId) :
    (evictOldHost w oldHost c).1.rooms = w.rooms := by
  cases oldHost with
  | none => rfl
  | some h => by_cases hc : h ≠ c <;> simp [evictOldHost, hc]

@[simp]
theorem nextId_evictOldHost (w : World) (oldHost : Option ConnId) (c : ConnId) :
    (evictOldHost w oldHost c).1.nextId = w.nextId := by
  cases oldHost with
  | none => rfl
  | some h => by_cases hc : h ≠ c <;> simp [evictOldHost, hc]

/-! ### Room invariant lemmas -/

theorem RoomInvC_mono {cs : List (ClientId × CEntry)} {slots : Slots} {b b' : Nat}
    (h : RoomInvC cs slots b) (hb : b ≤ b') : RoomInvC cs slots b' := by
  obtain ⟨h1, h2, h3, h4, h5⟩ := h
  exact ⟨h1, h2, h3, fun cid hm => lt_of_lt_of_le (h4 cid hm) hb, h5⟩

theorem RoomInv_mono {r : Room} {b b' : Nat} (h : RoomInv r b) (hb : b ≤ b') :
    RoomInv r b' :=
  RoomInvC_mono h hb

theorem RoomInvC_empty (b : Nat) : RoomInvC [] Slots.empty b := by
  refine ⟨by simp [alKeys], ?_, ?_, ?_, rfl⟩
  · intro cid e hget
    simp [alGet] at hget
  · intro sid sl hget
    cases sid <;> simp [Slots.get, Slots.empty] at hget
  · intro cid hm
    simp [alKeys] at hm

theorem RoomInvC_insert {cs : List (ClientId × CEntry)} {slots : Slots} {n : Nat}
    (h : RoomInvC cs slots n) (sid : SlotId) (hempty : slots.get sid = none)
    (ws : ConnId) (name : String) :
    RoomInvC (alSet cs n ⟨ws, name, sid⟩) (slots.set sid (some ⟨n, name⟩)) (n + 1) := by
  obtain ⟨h1, h2, h3, h4, h5⟩ := h
  have hfresh : (n : ClientId) ∉ alKeys cs := fun hm => lt_irrefl n (h4 n hm)
  refine ⟨?_, ?_, ?_, ?_, ?_⟩
  · rw [alKeys_alSet_of_not_mem _ _ _ hfresh]
    simp [List.nodup_append, h1, hfresh]
  · intro cid e hget
    rw [alGet_alSet] at hget
    by_cases hcid : cid = n
    · rw [if_pos hcid] at hget
      cases hget
      exact ⟨⟨n, name⟩, Slots.get_set_self _ _ _, hcid.symm⟩
    · rw [if_neg hcid] at hget
      obtain ⟨sl, hsl, hslc⟩ := h2 cid e hget
      have hne : e.slotId ≠ sid := by
        intro heq
        rw [heq, hempty] at hsl
        exact Option.noConfusion hsl
      exact ⟨sl, by rw [Slots.get_set_other _ _ _ _ hne]; exact hsl, hslc⟩
  · intro sid' sl' hget'
    by_cases hs' : sid' = sid
    · subst hs'
      rw [Slots.get_set_self] at hget'
      cases hget'
      refine ⟨⟨ws, name, sid'⟩, ?_, rfl⟩
      rw [alGet_alSet, if_pos rfl]
    · rw [Slots.get_set_other _ _ _ _ hs'] at hget'
      obtain ⟨e, he, hesid⟩ := h3 sid' sl' hget'
      have hlt : sl'.clientId < n := h4 _ (mem_alKeys_of_get _ _ _ he)
      refine ⟨e, ?_, hesid⟩
      rw [alGet_alSet, if_neg (Nat.ne_of_lt hlt)]
      exact he
  · intro cid hm
    rw [alKeys_alSet_of_not_mem _ _ _ hfresh] at hm
    rcases List.mem_append.mp hm with hm' | hm'
    · exact lt_of_lt_of_le (h4 cid hm') (Nat.le_succ n)
    · rw [List.mem_singleton] at hm'
      rw [hm']
      exact Nat.lt_succ_self n
  · rw [slotsFilled_set_some_of_none _ _ _ hempty, length_alSet_of_not_mem _ _ _ hfresh, h5]

theorem RoomInvC_remove {cs : List (ClientId × CEntry)} {slots : Slots} {b : Nat}
    (h : RoomInvC cs slots b) (cid : ClientId) (entry : CEntry)
    (hget : alGet cs cid = some entry) :
    RoomInvC (alDel cs cid) (slots.set entry.slotId none) b := by
  obtain ⟨h1, h2, h3, h4, h5⟩ := h
  obtain ⟨sl0, hsl0, hsl0c⟩ := h2 cid entry hget
  refine ⟨?_, ?_, ?_, ?_, ?_⟩
  · exact (alKeys_alDel_sublist cs cid).nodup h1
  · intro cid' e' hget'
    have hcne : cid' ≠ cid := by
      intro heq
      subst heq
      rw [alGet_alDel_self _ _ h1] at hget'
      exact Option.noConfusion hget'
    rw [alGet_alDel_other _ _ _ hcne] at hget'
    obtain ⟨sl, hsl, hslc⟩ := h2 cid' e' hget'
    have hne : e'.slotId ≠ entry.slotId := by
      intro heq
      rw [heq, hsl0] at hsl
      cases hsl
      exact hcne (by rw [← hslc, hsl0c])
    exact ⟨sl, by rw [Slots.get_set_other _ _ _ _ hne]; exact hsl, hslc⟩
  · intro sid' sl' hget'
    have hne : sid' ≠ entry.slotId := by
      intro heq
      subst heq
      rw [Slots.get_set_self] at hget'
      exact Option.noConfusion hget'
    rw [Slots.get_set_other _ _ _ _ hne] at hget'
    obtain ⟨e, he, hesid⟩ := h3 sid' sl' hget'
    have hcne : sl'.clientId ≠ cid := by
      intro heq
      rw [heq, hget] at he
      cases he
      exact hne (hesid ▸ rfl)
    refine ⟨e, ?_, hesid⟩
    rw [alGet_alDel_other _ _ _ hcne]
    exact he
  · intro cid' hm
    exact h4 cid' ((alKeys_alDel_sublist cs cid).mem hm)
  · have hc1 := slotsFilled_set_none_of_some _ _ _ hsl0
    have hc2 := length_alDel_of_get_some _ _ _ hget
    omega

theorem RoomInv_assignSlot (r : Room) (name : String) (ws : ConnId) (n : Nat)
    (h : RoomInv r n) :
    RoomInv (assignSlot r name ws n).2.1 (assignSlot r name ws n).2.2 := by
  unfold assignSlot
  cases hfe : firstEmptySlot r.slots with
  | none => exact h
  | some sid =>
    have hempty : r.slots.get sid = none := firstEmptySlot_none _ _ hfe
    exact RoomInvC_insert h sid hempty ws name

/-! ### World invariant preservation -/

theorem WInv_update {w : World} (hw : WInv w) {w' : World} {code : String}
    {r' : Room} (hrooms : w'.rooms = alSet w.rooms code r')
    (hn : w.nextId ≤ w'.nextId) (hr' : RoomInv r' w'.nextId) : WInv w' := by
  intro code' r'' hget
  rw [hrooms, alGet_alSet] at hget
  by_cases hc : code' = code
  · rw [if_pos hc] at hget
    cases hget
    exact hr'
  · rw [if_neg hc] at hget
    exact RoomInv_mono (hw code' r'' hget) hn

theorem WInv_frame {w : World} (hw : WInv w) {w' : World}
    (hrooms : w'.rooms = w.rooms) (hn : w.nextId ≤ w'.nextId) : WInv w' := by
  intro code r hget
  rw [hrooms] at hget
  exact RoomInv_mono (hw code r hget) hn

@[simp]
theorem nextId_generateClientId (w : World) :
    (generateClientId w).2.nextId = w.nextId + 1 := rfl

@[simp]
theorem rooms_generateClientId (w : World) :
    (generateClientId w).2.rooms = w.rooms := rfl

theorem WInv_ensureRoom {w : World} (code : String) (hw : WInv w) :
    WInv (ensureRoom w code).2 := by
  unfold ensureRoom
  split
  · exact hw
  · exact WInv_update hw rfl (le_refl _) (RoomInvC_empty _)

theorem WInv_handleBroadcast (w : World) (c : ConnId) (p : Option String)
    (hw : WInv w) : WInv (handleBroadcast w c p).1 := by
  unfold handleBroadcast
  repeat' split
  all_goals exact hw

theorem WInv_handleContestantBuzz (w : World) (c : ConnId) (p : Option BuzzPayload)
    (hw : WInv w) : WInv (handleContestantBuzz w c p).1 := by
  unfold handleContestantBuzz
  repeat' split
  all_goals exact hw

theorem WInv_handleBuzzersState (w : World) (c : ConnId) (p : Option BuzzersPayload)
    (hw : WInv w) : WInv (handleBuzzersState w c p).1 := by
  unfold handleBuzzersState
  dsimp only
  repeat' split
  all_goals try dsimp only
  all_goals first
    | exact hw
    | (refine WInv_update hw rfl (by try simp only [nextId_putRoom]; omega) ?_
       unfold RoomInv
       try dsimp only
       exact RoomInvC_mono (hw _ _ (by assumption))
         (by try simp only [nextId_putRoom]; omega))

theorem WInv_handleBuzzResult (w : World) (c : ConnId) (p : Option BuzzResultPayload)
    (hw : WInv w) : WInv (handleBuzzResult w c p).1 := by
  unfold handleBuzzResult
  dsimp only
  repeat' split
  all_goals try dsimp only
  all_goals first
    | exact hw
    | (refine WInv_update hw rfl (by try simp only [nextId_putRoom]; omega) ?_
       unfold RoomInv
       try dsimp only
       exact RoomInvC_mono (hw _ _ (by assumption))
         (by try simp only [nextId_putRoom]; omega))

theorem WInv_handleJoinContestant (w : World) (c : ConnId) (v nm : Option String)
    (hw : WInv w) : WInv (handleJoinContestant w c v nm).1 := by
  unfold handleJoinContestant
  dsimp only
  repeat' split
  all_goals try dsimp only
  all_goals first
    | exact hw
    | (refine WInv_update hw rfl
        (by try simp only [nextId_putRoom, nextId_setConn, nextId_generateClientId]; omega)
        ?_
       unfold RoomInv
       try dsimp only
       exact RoomInvC_mono (hw _ _ (by assumption))
         (by try simp only [nextId_putRoom, nextId_setConn, nextId_generateClientId]; omega))

theorem nextId_le_assignSlot (r : Room) (name : String) (ws : ConnId) (n : Nat) :
    n ≤ (assignSlot r name ws n).2.2 := by
  unfold assignSlot
  cases firstEmptySlot r.slots
  · exact le_refl n
  · exact Nat.le_succ n

theorem WInv_handleApproveContestant (w : World) (c : ConnId)
    (pr mr : Option ReqId) (hw : WInv w) : WInv (handleApproveContestant w c pr mr).1 := by
  unfold handleApproveContestant
  dsimp only
  repeat' split
  all_goals try dsimp only
  all_goals first
    | exact hw
    | (refine WInv_update hw rfl
        (by try simp only [nextId_putRoom, nextId_setConn]; omega) ?_
       unfold RoomInv
       try dsimp only
       exact RoomInvC_mono (hw _ _ (by assumption))
         (by try simp only [nextId_putRoom, nextId_setConn]; omega))
    | (refine WInv_update hw rfl
        (by try simp only [nextId_putRoom, nextId_setConn]
            exact nextId_le_assignSlot _ _ _ _) ?_
       refine RoomInv_assignSlot _ _ _ _ ?_
       unfold RoomInv
       try dsimp only
       exact RoomInvC_mono (hw _ _ (by assumption)) (le_refl _))

theorem WInv_handleDenyContestant (w : World) (c : ConnId)
    (pr mr : Option ReqId) (hw : WInv w) : WInv (handleDenyContestant w c pr mr).1 := by
  unfold handleDenyContestant
  dsimp only
  repeat' split
  all_goals try dsimp only
  all_goals first
    | exact hw
    | (refine WInv_update hw rfl
        (by try simp only [nextId_putRoom, nextId_setConn]; omega) ?_
       unfold RoomInv
       try dsimp only
       exact RoomInvC_mono (hw _ _ (by assumption))
         (by try simp only [nextId_putRoom, nextId_setConn]; omega))

theorem WInv_handleRegisterHost (w : World) (c : ConnId) (v : Option String)
    (hw : WInv w) : WInv (handleRegisterHost w c v).1 := by
  unfold handleRegisterHost
  dsimp only
  have hw0 : WInv (if sanitizeRoomCode v = "" then { w with nextId := w.nextId + 1 } else w) := by
    split
    · exact fun code r hget => RoomInv_mono (hw code r hget) (Nat.le_succ _)
    · exact hw
  refine WInv_update (WInv_frame (WInv_frame (WInv_frame (WInv_ensureRoom _ hw0)
      (rooms_evictOldHost _ _ _) (le_of_eq (nextId_evictOldHost _ _ _).symm))
      (rooms_evictContestantsLoop _ _ _)
      (le_of_eq (nextId_evictContestantsLoop _ _ _).symm))
      (rooms_clearPendingLoop _ _ _)
      (le_of_eq (nextId_clearPendingLoop _ _ _).symm))
    rfl (le_refl _) (RoomInvC_empty _)

theorem closePendingStage_contestants (w0 : World) (st : ConnState) (r : Room) :
    (closePendingStage w0 st r).1.contestants = r.contestants := by
  unfold closePendingStage
  repeat' split
  all_goals rfl

theorem closePendingStage_slots (w0 : World) (st : ConnState) (r : Room) :
    (closePendingStage w0 st r).1.slots = r.slots := by
  unfold closePendingStage
  repeat' split
  all_goals rfl

theorem RoomInv_closePendingStage (w0 : World) (st : ConnState) (r : Room)
    (b : Nat) (h : RoomInv r b) : RoomInv (closePendingStage w0 st r).1 b := by
  unfold RoomInv RoomInvC at h ⊢
  rw [closePendingStage_contestants, closePendingStage_slots]
  exact h

theorem RoomInv_closeContestantStage (w0 : World) (st : ConnState) (r1 : Room)
    (b : Nat) (h : RoomInv r1 b) : RoomInv (closeContestantStage w0 st r1).1 b := by
  unfold closeContestantStage
  dsimp only
  split
  case isFalse => exact h
  case isTrue =>
    split
    case h_2 => exact h
    case h_1 cid hcid =>
      split
      case h_2 => exact h
      case h_1 entry hentry =>
        obtain ⟨sl, hsl, hslc⟩ := h.2.1 cid entry hentry
        split
        case h_1 sl' hsl' =>
          have hsleq : sl' = sl := by
            have h2 : some sl' = some sl := by
              rw [← hsl']
              exact hsl
            exact Option.some.inj h2
          split
          case isTrue => exact RoomInvC_remove h cid entry hentry
          case isFalse hne =>
            exfalso
            apply hne
            rw [hsleq]
            exact hslc
        case h_2 hnone =>
          exfalso
          rw [hnone] at hsl
          exact Option.noConfusion hsl

theorem WInv_handleClose (w : World) (c : ConnId) (hw : WInv w) :
    WInv (handleClose w c).1 := by
  unfold handleClose
  dsimp only
  repeat' split
  all_goals try dsimp only
  all_goals first
    | exact hw
    | exact WInv_update (WInv_frame (WInv_frame hw
          (rooms_evictContestantsLoop (closeConn w c) _ _)
          (le_of_eq (nextId_evictContestantsLoop (closeConn w c) _ _).symm))
          (rooms_clearPendingLoop _ _ _)
          (le_of_eq (nextId_clearPendingLoop _ _ _).symm))
        rfl (le_refl _) (RoomInvC_empty _)
    | (refine WInv_update hw rfl
        (by try simp only [nextId_putRoom, nextId_closeConn]; omega) ?_
       refine RoomInv_closeContestantStage _ _ _ _ ?_
       refine RoomInv_closePendingStage _ _ _ _ ?_
       unfold RoomInv
       try dsimp only
       exact RoomInvC_mono (hw _ _ (by assumption))
         (by try simp only [nextId_putRoom, nextId_closeConn]; omega))

theorem WInv_step (w : World) (e : Event) (hw : WInv w) : WInv (step w e).1 := by
  cases e with
  | connect c => exact hw
  | registerHost c rc => exact WInv_handleRegisterHost _ _ _ hw
  | joinContestant c rc nm => exact WInv_handleJoinContestant _ _ _ _ hw
  | broadcastMsg c p =>
    dsimp only [step]
    split
    · exact hw
    · exact WInv_handleBroadcast _ _ _ hw
  | buzzersState c p =>
    dsimp only [step]
    split
    · exact hw
    · exact WInv_handleBuzzersState _ _ _ hw
  | buzzResult c p =>
    dsimp only [step]
    split
    · exact hw
    · exact WInv_handleBuzzResult _ _ _ hw
  | contestantBuzz c p =>
    dsimp only [step]
    split
    · exact hw
    · exact WInv_handleContestantBuzz _ _ _ hw
  | approveContestant c pr mr =>
    dsimp only [step]
    split
    · exact hw
    · exact WInv_handleApproveContestant _ _ _ _ hw
  | denyContestant c pr mr =>
    dsimp only [step]
    split
    · exact hw
    · exact WInv_handleDenyContestant _ _ _ _ hw
  | disconnect c => exact WInv_handleClose _ _ hw

theorem WInv_init : WInv World.init := by
  intro code r hget
  exact Option.noConfusion hget

theorem WInv_run (w : World) (tr : List Event) (hw : WInv w) : WInv (run w tr) := by
  induction tr generalizing w with
  | nil => exact hw
  | cons e t ih => exact ih _ (WInv_step w e hw)

/-- C1: after any sequence of engine operations starting from the empty
server, every registered room has exactly as many occupied slots as entries
in its `contestants` map. -/
theorem slots_contestants_count_invariant (tr : List Event) (code : String)
    (r : Room) (h : getRoom (run World.init tr) code = some r) :
    slotsFilled r.slots = r.contestants.length :=
  (WInv_run World.init tr WInv_init code r h).2.2.2.2

/-- Witness for C1 at the concrete happy-path trace. -/
theorem slots_contestants_count_invariant_witness :
    getRoom (run World.init demoTrace) "1234" = some demoRoom ∧
    slotsFilled demoRoom.slots = demoRoom.contestants.length :=
  ⟨by decide, slots_contestants_count_invariant demoTrace "1234" demoRoom (by decide)⟩

/-- C3: processing a `contestant-buzz` message never mutates any state: the
post-state world equals the pre-state world for every input. -/
theorem contestant_buzz_no_mutation (w : World) (c : ConnId) (p : Option BuzzPayload) :
    (step w (.contestantBuzz c p)).1 = w := by
  dsimp only [step]
  split
  · rfl
  · unfold handleContestantBuzz
    repeat' split
    all_goals rfl

@[simp]
theorem getRoom_putRoom (w : World) (code' : String) (R : Room) (code : String) :
    getRoom (putRoom w code' R) code = if code = code' then some R else getRoom w code := by
  unfold getRoom putRoom
  exact alGet_alSet _ _ _ _

@[simp]
theorem conns_putRoom (w : World) (code : String) (r : Room) :
    (putRoom w code r).conns = w.conns := rfl

@[simp]
theorem conns_setConn_self (w : World) (c : ConnId) (f : ConnState → ConnState) :
    (setConn w c f).conns c = f (w.conns c) := by
  simp [setConn]

/-- C9: `assignSlot` is deterministic first-fit over the fixed order
contestant-1, contestant-2, contestant-3: it returns `none` exactly when all
three slots are occupied, and otherwise occupies the first empty slot with a
freshly minted client id, storing the mirrored `{clientId, name}` /
`{connection, name, slotId}` pair in `slots` and `contestants`. -/
theorem assignSlot_first_fit (r : Room) (name : String) (ws : ConnId) (n : Nat) :
    match assignSlot r name ws n with
    | (none, r', n') =>
        r' = r ∧ n' = n ∧ r.slots.s1 ≠ none ∧ r.slots.s2 ≠ none ∧ r.slots.s3 ≠ none
    | (some (sid, cid), r', n') =>
        cid = n ∧ n' = n + 1 ∧
        ((sid = SlotId.c1 ∧ r.slots.s1 = none) ∨
         (sid = SlotId.c2 ∧ r.slots.s1 ≠ none ∧ r.slots.s2 = none) ∨
         (sid = SlotId.c3 ∧ r.slots.s1 ≠ none ∧ r.slots.s2 ≠ none ∧ r.slots.s3 = none)) ∧
        r' = { r with slots := r.slots.set sid (some ⟨cid, name⟩),
                      contestants := alSet r.contestants cid ⟨ws, name, sid⟩ } := by
  cases hs1 : r.slots.s1 with
  | none => simp [assignSlot, firstEmptySlot, hs1]
  | some v1 =>
    cases hs2 : r.slots.s2 with
    | none => simp [assignSlot, firstEmptySlot, hs1, hs2]
    | some v2 =>
      cases hs3 : r.slots.s3 with
      | none => simp [assignSlot, firstEmptySlot, hs1, hs2, hs3]
      | some v3 => simp [assignSlot, firstEmptySlot, hs1, hs2, hs3]

/-- C5: a host `buzzers-state` action with `open = true` sets `buzzersOpen`
to true and clears `activeResponder`, whatever its prior value. -/
theorem buzzers_open_clears_active_responder (w : World) (c : ConnId)
    (code : String) (r : Room) (p : BuzzersPayload)
    (hrc : (w.conns c).roomCode = some code)
    (hr : getRoom w code = some r)
    (hhost : r.host = some c)
    (hopen : p.isOpen = true) :
    getRoom (step w (.buzzersState c (some p))).1 code =
      some { r with buzzersOpen := true, activeResponder := none } := by
  simp only [step, hrc, Option.isNone_some, Bool.false_eq_true, if_false]
  unfold handleBuzzersState
  rw [hrc]
  dsimp only
  rw [hr]
  dsimp only
  rw [if_pos hhost, hopen]
  dsimp only
  simp [getRoom_putRoom]

/-- Witness for C5: re-opening the buzzers after a confirmed responder clears
the lock. -/
theorem buzzers_open_clears_active_responder_witness :
    getRoom (step (run World.init demoTrace) (.buzzersState 0 (some ⟨true, none⟩))).1 "1234" =
      some { demoRoom with buzzersOpen := true, activeResponder := none } :=
  buzzers_open_clears_active_responder (run World.init demoTrace) 0 "1234" demoRoom
    ⟨true, none⟩ (by decide) (by decide) (by decide) (by decide)

/-- C4: a `contestant-buzz` whose claimed slot is empty (or unknown) or whose
client id differs from the slot's current occupant produces no output at all:
nothing reaches the host and the sender gets no reply. -/
theorem mismatched_buzz_sends_nothing (w : World) (c : ConnId) (code : String)
    (r : Room) (p : BuzzPayload) (cid : ClientId)
    (hrc : (w.conns c).roomCode = some code)
    (hr : getRoom w code = some r)
    (hcid : p.clientId = some cid)
    (hbad : ∀ sl, (parseSlotId p.slotId).bind r.slots.get = some sl → sl.clientId ≠ cid) :
    (step w (.contestantBuzz c (some p))).2 = [] := by
  simp only [step, hrc, Option.isNone_some, Bool.false_eq_true, if_false]
  unfold handleContestantBuzz
  rw [hrc]
  dsimp only
  rw [hr]
  dsimp only
  by_cases hs : p.slotId = ""
  · rw [if_pos hs]
  · rw [if_neg hs, hcid]
    dsimp only
    cases hlook : (parseSlotId p.slotId).bind r.slots.get with
    | none => rfl
    | some sl =>
      dsimp only
      rw [if_pos (hbad sl hlook)]

/-- Witness for C4: a buzz claiming contestant-1 with a wrong client id is
dropped silently. -/
theorem mismatched_buzz_sends_nothing_witness :
    (step (run World.init (demoTrace.take 6))
      (.contestantBuzz 1 (some ⟨"contestant-1", some 99, some "Alex"⟩))).2 = [] :=
  mismatched_buzz_sends_nothing (run World.init (demoTrace.take 6)) 1 "1234" openRoom
    ⟨"contestant-1", some 99, some "Alex"⟩ 99 (by decide) (by decide) (by decide)
    (by decide)

/-- C8: approving a request id that is not in `pendingJoins` sends exactly one
`contestant-request-error` to the host and leaves the whole world (hence the
whole room state) unchanged. -/
theorem approve_missing_request (w : World) (c : ConnId) (code : String)
    (r : Room) (pr mr : Option ReqId) (rid : ReqId)
    (hrc : (w.conns c).roomCode = some code)
    (hr : getRoom w code = some r)
    (hhost : r.host = some c)
    (hrid : pr.or mr = some rid)
    (hmiss : alGet r.pendingJoins rid = none)
    (hopen : (w.conns c).readyOpen = true) :
    (step w (.approveContestant c pr mr)).1 = w ∧
    (step w (.approveContestant c pr mr)).2 =
      [(c, OutMsg.contestantRequestError rid "Request no longer available.")] := by
  simp only [step, hrc, Option.isNone_some, Bool.false_eq_true, if_false]
  unfold handleApproveContestant
  rw [hrc]
  dsimp only
  rw [hr]
  dsimp only
  rw [if_neg (by rw [hhost]; exact fun h => h rfl), hrid]
  try dsimp only
  rw [hmiss]
  try dsimp only
  exact ⟨rfl, by simp [send, hopen]⟩

/-- Witness for C8: approving the unknown request id 99 in a live room. -/
theorem approve_missing_request_witness :
    (step (run World.init demoTrace) (.approveContestant 0 (some 99) none)).1 =
      run World.init demoTrace ∧
    (step (run World.init demoTrace) (.approveContestant 0 (some 99) none)).2 =
      [(0, OutMsg.contestantRequestError 99 "Request no longer available.")] :=
  approve_missing_request (run World.init demoTrace) 0 "1234" demoRoom (some 99) none 99
    (by decide) (by decide) (by decide) (by decide) (by decide) (by decide)

/-- C10: the decision to forward a `contestant-buzz` depends only on the
sender's bound room code, the payload and the room state: any connection bound
to the room whose payload matches the slot's current occupant has its buzz
forwarded to the host when the buzzers are open, the host is live and no
responder is locked in — with no hypothesis at all about the sender's role,
client id or pending state. -/
theorem buzz_forward_role_independent (w : World) (c : ConnId) (code : String)
    (r : Room) (p : BuzzPayload) (cid : ClientId) (sid : SlotId) (slot : SlotVal)
    (h : ConnId)
    (hrc : (w.conns c).roomCode = some code)
    (hr : getRoom w code = some r)
    (hcid : p.clientId = some cid)
    (hsid : parseSlotId p.slotId = some sid)
    (hslot : r.slots.get sid = some slot)
    (hmatch : slot.clientId = cid)
    (hopen : r.buzzersOpen = true)
    (hhost : r.host = some h)
    (hhopen : (w.conns h).readyOpen = true)
    (hnoresp : r.activeResponder = none) :
    (step w (.contestantBuzz c (some p))).2 =
      [(h, OutMsg.contestantBuzz p.slotId cid p.name)] := by
  have hsne : p.slotId ≠ "" := by
    intro he
    rw [he] at hsid
    simp [parseSlotId] at hsid
  have hlive : (r.buzzersOpen && hostLive w r) = true := by
    rw [hopen]
    simp [hostLive, hhost, hhopen]
  simp only [step, hrc, Option.isNone_some, Bool.false_eq_true, if_false]
  unfold handleContestantBuzz
  rw [hrc]
  dsimp only
  rw [hr]
  dsimp only
  rw [if_neg hsne, hcid]
  dsimp only
  rw [show (parseSlotId p.slotId).bind r.slots.get = some slot by rw [hsid]; exact hslot]
  dsimp only
  rw [if_neg (fun hh => hh hmatch), hlive]
  simp only [Bool.true_eq_false, if_false]
  rw [hnoresp]
  dsimp only
  rw [hhost]
  dsimp only
  simp [send, hhopen]

/-- Witness for C10: the host connection itself, supplying contestant-1's
matching slot and client id, has the buzz forwarded (to itself). -/
theorem buzz_forward_role_independent_witness :
    (step (run World.init (demoTrace.take 6))
      (.contestantBuzz 0 (some ⟨"contestant-1", some 1, some "Alex"⟩))).2 =
      [(0, OutMsg.contestantBuzz "contestant-1" 1 (some "Alex"))] :=
  buzz_forward_role_independent (run World.init (demoTrace.take 6)) 0 "1234" openRoom
    ⟨"contestant-1", some 1, some "Alex"⟩ 1 SlotId.c1 ⟨1, "Alex"⟩ 0
    (by decide) (by decide) (by decide) (by decide) (by decide) (by decide)
    (by decide) (by decide) (by decide) (by decide)

@[simp]
theorem clearPendingRequests_room (w : World) (r : Room) (reason : String) :
    (clearPendingRequests w r reason).2.1 = { r with pendingJoins := [] } := rfl

/-- C6: a host registration for a code whose room already exists resets it
completely — whatever its prior state, afterwards all three slots are empty,
the `contestants` and `pendingJoins` maps are empty, `buzzersOpen` is false,
`activeResponder` is none, and the registering connection is bound as host. -/
theorem host_reregistration_resets_room (w : World) (c : ConnId) (v : Option String)
    (code : String) (r : Room)
    (hsan : sanitizeRoomCode v = code)
    (hne : code ≠ "")
    (hr : getRoom w code = some r) :
    getRoom (step w (.registerHost c v)).1 code =
      some { code := r.code, host := some c, contestants := [], slots := Slots.empty,
             buzzersOpen := false, activeResponder := none, pendingJoins := [] } ∧
    ((step w (.registerHost c v)).1.conns c).isHost = true ∧
    ((step w (.registerHost c v)).1.conns c).roomCode = some r.code := by
  have hr' : alGet w.rooms code = some r := hr
  dsimp only [step]
  unfold handleRegisterHost
  rw [hsan]
  simp only [if_neg hne]
  unfold ensureRoom
  rw [hr']
  dsimp only
  unfold resetRoomState
  dsimp only
  refine ⟨?_, ?_, ?_⟩
  · simp [getRoom_putRoom]
  · simp [conns_setConn_self]
  · simp [conns_setConn_self]

set_option maxHeartbeats 1600000 in
/-- Witness for C6: re-registering connection 3 over the fully active demo
room yields a clean room bound to connection 3. -/
theorem host_reregistration_resets_room_witness :
    getRoom (step (run World.init (demoTrace ++ [Event.connect 3]))
        (Event.registerHost 3 (some "1234"))).1 "1234" =
      some { code := demoRoom.code, host := some 3, contestants := [], slots := Slots.empty,
             buzzersOpen := false, activeResponder := none, pendingJoins := [] } ∧
    ((step (run World.init (demoTrace ++ [Event.connect 3]))
        (Event.registerHost 3 (some "1234"))).1.conns 3).isHost = true ∧
    ((step (run World.init (demoTrace ++ [Event.connect 3]))
        (Event.registerHost 3 (some "1234"))).1.conns 3).roomCode = some demoRoom.code :=
  host_reregistration_resets_room (run World.init (demoTrace ++ [Event.connect 3])) 3
    (some "1234") "1234" demoRoom (by decide) (by decide) (by decide)

theorem handleBroadcast_world (w : World) (c : ConnId) (p : Option String) :
    (handleBroadcast w c p).1 = w := by
  unfold handleBroadcast
  repeat' split
  all_goals rfl

theorem handleContestantBuzz_world (w : World) (c : ConnId) (p : Option BuzzPayload) :
    (handleContestantBuzz w c p).1 = w := by
  unfold handleContestantBuzz
  repeat' split
  all_goals rfl

theorem activeResponder_assignSlot (r : Room) (name : String) (ws : ConnId) (n : Nat) :
    ((assignSlot r name ws n).2.1).activeResponder = r.activeResponder := by
  unfold assignSlot
  cases firstEmptySlot r.slots <;> rfl

theorem activeResponder_closePendingStage (w0 : World) (st : ConnState) (r : Room) :
    ((closePendingStage w0 st r).1).activeResponder = r.activeResponder := by
  unfold closePendingStage
  repeat' split
  all_goals rfl

theorem activeResponder_closeContestantStage (w0 : World) (st : ConnState) (r : Room) :
    ((closeContestantStage w0 st r).1).activeResponder = r.activeResponder := by
  unfold closeContestantStage
  dsimp only
  repeat' split
  all_goals try dsimp only

theorem resolve_same {α : Prop} {o : Option Room} {r r' : Room}
    (h1 : o = some r) (h2 : o = some r')
    (hne : r'.activeResponder ≠ r.activeResponder) : α := by
  rw [h1] at h2
  exact absurd (congrArg Room.activeResponder (Option.some.inj h2).symm) hne

/-- C2 is false as stated: `buzzResultNoOpenTrace` contains no `buzzers-state`
event and no `contestant-buzz` event at all, yet it ends with
`activeResponder = some 7` while the buzzers are closed. -/
theorem active_responder_without_buzz_counterexample :
    (∀ e ∈ buzzResultNoOpenTrace, e.isContestantBuzz = false ∧ e.isBuzzersState = false) ∧
    (getRoom (run World.init buzzResultNoOpenTrace) "1234").map
      (fun r => (r.buzzersOpen, r.activeResponder)) = some (false, some 7) := by
  decide

/-- C7 is false as stated: after `crossRoomJoinTrace`, connection 2 is
referenced by more than one `pendingJoins` entry across the rooms (in fact by
three: two stale ones and the live one). -/
theorem pending_refs_counterexample :
    ¬ (pendingRefs (run World.init crossRoomJoinTrace) 2 ≤ 1) := by
  decide

@[simp]
theorem rooms_clearPendingRequests (w : World) (r : Room) (reason : String) :
    (clearPendingRequests w r reason).1.rooms = w.rooms := by
  unfold clearPendingRequests
  dsimp only
  exact rooms_clearPendingLoop _ _ _

@[simp]
theorem nextId_clearPendingRequests (w : World) (r : Room) (reason : String) :
    (clearPendingRequests w r reason).1.nextId = w.nextId := by
  unfold clearPendingRequests
  dsimp only
  exact nextId_clearPendingLoop _ _ _

@[simp]
theorem getRoom_closeConn (w : World) (c : ConnId) (code : String) :
    getRoom (closeConn w c) code = getRoom w code := rfl

theorem handleBuzzResult_rooms (w : World) (c : ConnId) (pl : Option BuzzResultPayload)
    (code : String) :
    getRoom (handleBuzzResult w c pl).1 code = getRoom w code ∨
    ∃ code0 r0 p, (w.conns c).roomCode = some code0 ∧ getRoom w code0 = some r0 ∧
      r0.host = some c ∧ pl = some p ∧
      getRoom (handleBuzzResult w c pl).1 code =
        (if code = code0 then some { r0 with activeResponder := p.contestantId }
         else getRoom w code) := by
  unfold handleBuzzResult
  split
  · exact Or.inl rfl
  · split
    · split
      · rename_i s hrc0 x pl0 r0 p0 hlook hhost0
        refine Or.inr ⟨s, r0, p0, hrc0, hlook, hhost0, rfl, ?_⟩
        simp [getRoom, rooms_putRoom, alGet_alSet]
      · exact Or.inl rfl
    · exact Or.inl rfl

/-- C2 (amended): the host's `buzz-result` action is the sole writer of a
non-none `activeResponder`.  Whenever one engine step changes a room's
`activeResponder`, either the new value is `none` (opening the buzzers, a
reset, or teardown cleared it) or the event was a `buzz-result` from the
room's bound host and the new value is exactly the payload's contestant id —
regardless of whether the buzzers were ever opened and of whether any
contestant ever buzzed. -/
theorem active_responder_sole_writer (w : World) (e : Event) (code : String)
    (r r' : Room)
    (hr : getRoom w code = some r)
    (hr' : getRoom (step w e).1 code = some r')
    (hne : r'.activeResponder ≠ r.activeResponder) :
    r'.activeResponder = none ∨
    ∃ c p, e = Event.buzzResult c (some p) ∧ (w.conns c).roomCode = some code ∧
      r.host = some c ∧ r'.activeResponder = p.contestantId := by
  cases e with
  | connect c => exact resolve_same hr hr' hne
  | broadcastMsg c p =>
    have hw : (step w (.broadcastMsg c p)).1 = w := by
      dsimp only [step]
      split
      · rfl
      · exact handleBroadcast_world _ _ _
    rw [hw] at hr'
    exact resolve_same hr hr' hne
  | contestantBuzz c p =>
    have hw : (step w (.contestantBuzz c p)).1 = w := by
      dsimp only [step]
      split
      · rfl
      · exact handleContestantBuzz_world _ _ _
    rw [hw] at hr'
    exact resolve_same hr hr' hne
  | joinContestant c v nm =>
    revert hr'
    dsimp only [step]
    unfold handleJoinContestant
    dsimp only
    repeat' split
    all_goals try dsimp only
    all_goals intro hr'
    all_goals first
      | exact resolve_same hr hr' hne
      | (simp only [getRoom, rooms_putRoom, rooms_setConn, rooms_generateClientId,
           alGet_alSet] at hr'
         split at hr'
         · cases hr'
           simp_all
         · exact resolve_same hr hr' hne)
  | approveContestant c pr mr =>
    revert hr'
    dsimp only [step]
    unfold handleApproveContestant
    dsimp only
    repeat' split
    all_goals try dsimp only
    all_goals intro hr'
    all_goals first
      | exact resolve_same hr hr' hne
      | (simp only [getRoom, rooms_putRoom, rooms_setConn, alGet_alSet] at hr'
         split at hr'
         · cases hr'
           simp_all [activeResponder_assignSlot]
         · exact resolve_same hr hr' hne)
  | denyContestant c pr mr =>
    revert hr'
    dsimp only [step]
    unfold handleDenyContestant
    dsimp only
    repeat' split
    all_goals try dsimp only
    all_goals intro hr'
    all_goals first
      | exact resolve_same hr hr' hne
      | (simp only [getRoom, rooms_putRoom, rooms_setConn, alGet_alSet] at hr'
         split at hr'
         · cases hr'
           simp_all
         · exact resolve_same hr hr' hne)
  | buzzersState c pl =>
    revert hr'
    dsimp only [step]
    unfold handleBuzzersState
    dsimp only
    repeat' split
    all_goals intro hr'
    all_goals first
      | exact resolve_same hr hr' hne
      | (simp only [getRoom, rooms_putRoom, alGet_alSet] at hr'
         split at hr'
         · cases hr'
           first
             | exact Or.inl rfl
             | simp_all
         · exact resolve_same hr hr' hne)
  | buzzResult c pl =>
    by_cases hb : (w.conns c).roomCode.isNone = true
    · have hw : (step w (.buzzResult c pl)).1 = w := by
        dsimp only [step]
        rw [if_pos hb]
      rw [hw] at hr'
      exact resolve_same hr hr' hne
    · have hw : (step w (.buzzResult c pl)).1 = (handleBuzzResult w c pl).1 := by
        dsimp only [step]
        rw [if_neg hb]
      rw [hw] at hr'
      rcases handleBuzzResult_rooms w c pl code with heq | ⟨code0, r0, p, hrc0, hlook, hhost0, hpl, heq⟩
      · rw [heq] at hr'
        exact resolve_same hr hr' hne
      · rw [heq] at hr'
        by_cases hcc : code = code0
        · subst hcc
          rw [if_pos rfl] at hr'
          cases hr'
          rw [hr] at hlook
          cases hlook
          exact Or.inr ⟨c, p, by rw [hpl], hrc0, hhost0, rfl⟩
        · rw [if_neg hcc] at hr'
          exact resolve_same hr hr' hne
  | registerHost c v =>
    revert hr'
    dsimp only [step]
    unfold handleRegisterHost ensureRoom
    dsimp only
    repeat' split
    all_goals try dsimp only
    all_goals intro hr'
    all_goals first
      | exact resolve_same hr hr' hne
      | (simp only [getRoom, rooms_putRoom, rooms_setConn, rooms_clearPendingRequests,
           rooms_clearPendingLoop, rooms_evictContestantsLoop, rooms_evictOldHost,
           alGet_alSet] at hr'
         split at hr'
         · cases hr'
           exact Or.inl rfl
         · exact resolve_same hr hr' hne)
  | disconnect c =>
    revert hr'
    dsimp only [step]
    unfold handleClose
    dsimp only
    repeat' split
    all_goals try dsimp only
    all_goals intro hr'
    all_goals first
      | exact resolve_same hr hr' hne
      | (simp only [getRoom, rooms_putRoom, rooms_setConn, rooms_closeConn,
           rooms_clearPendingRequests, rooms_clearPendingLoop,
           rooms_evictContestantsLoop, alGet_alSet] at hr'
         split at hr'
         · cases hr'
           first
             | exact Or.inl rfl
             | simp_all [activeResponder_closePendingStage, activeResponder_closeContestantStage,
                 getRoom_closeConn]
         · exact resolve_same hr hr' hne)

/-- Witness for the amended C2: the registration-then-buzz-result step changes
`activeResponder` from `none` to `some 7`, and the theorem attributes it to
the host's `buzz-result`. -/
theorem active_responder_sole_writer_witness :
    ({ regRoom with activeResponder := some 7 } : Room).activeResponder = none ∨
    ∃ c p, Event.buzzResult 0 (some ⟨some 7, some "X"⟩) = Event.buzzResult c (some p) ∧
      ((run World.init (buzzResultNoOpenTrace.take 2)).conns c).roomCode = some "1234" ∧
      regRoom.host = some c ∧
      ({ regRoom with activeResponder := some 7 } : Room).activeResponder = p.contestantId :=
  active_responder_sole_writer (run World.init (buzzResultNoOpenTrace.take 2))
    (Event.buzzResult 0 (some ⟨some 7, some "X"⟩)) "1234" regRoom
    { regRoom with activeResponder := some 7 }
    (by decide) (by decide) (by decide)

/-- C7 (amended): re-requesting while the connection's current pending request
is in the target room updates the stored name in place: the `pendingJoins`
entry is overwritten at the same request id, no fresh token is minted (the id
supply is unchanged), the connection's `pendingRequestId` is unchanged, and no
message is sent.  (Entries left in other rooms are not cleaned up, so the
per-connection uniqueness claimed across all rooms does not hold.) -/
theorem rerequest_updates_pending_in_place (w : World) (c : ConnId)
    (v nm : Option String) (code : String) (r : Room) (hconn : ConnId)
    (prid : ReqId) (pe : PendEntry)
    (hsan : sanitizeRoomCode v = code)
    (hr : getRoom w code = some r)
    (hhost : r.host = some hconn)
    (hhopen : (w.conns hconn).readyOpen = true)
    (hpend : (w.conns c).pendingRequestId = some prid)
    (hentry : alGet r.pendingJoins prid = some pe) :
    getRoom (step w (.joinContestant c v nm)).1 code =
      some { r with pendingJoins := alSet r.pendingJoins prid (renamedEntry pe (sanitizeName nm)) } ∧
    (step w (.joinContestant c v nm)).1.nextId = w.nextId ∧
    ((step w (.joinContestant c v nm)).1.conns c).pendingRequestId = some prid ∧
    (step w (.joinContestant c v nm)).2 = [] := by
  dsimp only [step]
  unfold handleJoinContestant
  rw [hsan]
  dsimp only
  rw [hr]
  dsimp only
  rw [hhost]
  dsimp only
  rw [hhopen]
  simp only [Bool.true_eq_false, if_false]
  rw [show ((setConn w c fun s => { s with roomCode := some r.code }).conns c).pendingRequestId
       = some prid by rw [conns_setConn_self]; exact hpend]
  simp only [Option.some_bind, hentry, Option.map_some']
  refine ⟨?_, ?_, ?_, ?_⟩ <;>
    simp [getRoom_putRoom, renamedEntry, conns_setConn_self, hpend]

/-- Witness for the amended C7: connection 2 re-requests to join room 1111
with a new name while its request 0 is pending there; the entry is updated in
place and no new id is minted. -/
theorem rerequest_updates_pending_in_place_witness :
    getRoom (step (run World.init (crossRoomJoinTrace.take 6))
        (Event.joinContestant 2 (some "1111") (some "Bea"))).1 "1111" =
      some pendingRoom1111Renamed ∧
    (step (run World.init (crossRoomJoinTrace.take 6))
        (Event.joinContestant 2 (some "1111") (some "Bea"))).1.nextId =
      (run World.init (crossRoomJoinTrace.take 6)).nextId ∧
    ((step (run World.init (crossRoomJoinTrace.take 6))
        (Event.joinContestant 2 (some "1111") (some "Bea"))).1.conns 2).pendingRequestId = some 0 ∧
    (step (run World.init (crossRoomJoinTrace.take 6))
        (Event.joinContestant 2 (some "1111") (some "Bea"))).2 = [] :=
  rerequest_updates_pending_in_place (run World.init (crossRoomJoinTrace.take 6)) 2
    (some "1111") (some "Bea") "1111" pendingRoom1111 0 0 ⟨2, "A"⟩
    (by decide) (by decide) (by decide) (by decide) (by decide) (by decide)
